import Mathlib

/-!
Verification of the kill-score handicap analysis engine of the Dota-data
dashboard.  The definitions below are a shallow embedding of the engine code:

* `buildHandicapRange` / `formatHandicap` from
  `src/app/teams/[slug]/handicap/page.tsx` and
  `src/app/patches/[patch]/handicap/general/page.tsx` (both files contain the
  same two-loop generator);
* `applyHandicap` / `applyHandicapRange`, `calculatePercentages`,
  `calculateTeamHandicapData` and the inline `headToHead` closure from
  `src/app/patches/[patch]/page.tsx` (handicap section);
* the inline per-team aggregation loop, `finalizePercentages` and the
  row sorting of `TeamHandicapPage` in `src/app/teams/[slug]/handicap/page.tsx`;
* `initBucketsByTeam`, `accumulateMatchForTeam` and the row construction of
  `src/app/patches/[patch]/handicap/general/page.tsx`.

JavaScript numbers are modelled exactly: match scores are integral (`ℤ`),
durations and handicap values are `ℚ`.  Every number produced by the handicap
loops is a half-integer of magnitude at most 16.5, hence exactly representable
in binary floating point, so exact rational arithmetic is a faithful model of
the source's arithmetic.  `Record<string, number>` bucket objects are read in
the source with a `?? 0` default, so they are modelled as total functions with
default `0`.
-/

namespace DotaData

/-- The `Match` row type from `src/lib/types.ts`, restricted to the fields the
handicap engine reads.  `radiantTeamId` and `direTeamId` are `string | null` in
the source; `leagueId` and `patchId` are plain strings that `mapMatch` in
`src/lib/supabase/queries.ts` fills with `""` when the column is absent, and
the pages test them with JavaScript truthiness (`if (leagueId)`), which an
empty string fails. -/
structure Match where
  id : String
  leagueId : String
  duration : ℚ
  direScore : ℤ
  radiantScore : ℤ
  radiantWin : Bool
  radiantTeamId : Option String
  direTeamId : Option String
  patchId : String
deriving Repr, DecidableEq

/-- The `Team` row type from `src/lib/types.ts`, restricted to the fields the
handicap pages read. -/
structure Team where
  id : String
  name : String
  slug : String
deriving Repr, DecidableEq

/-- JavaScript truthiness of a `string | null` value: `null` and `""` are
falsy, every other string is truthy.  Used for the `if (!radiant || !dire)`
guard of the head-to-head closure and the `if (match.radiantTeamId)` guards of
the general handicap page. -/
def jsTruthy : Option String → Bool
  | none => false
  | some s => s != ""

/-- One `for (let value = start; value <= bound; value += 2.0)` loop of
`buildHandicapRange`.  All loop values at both call sites are half-integers of
magnitude below 32, exactly representable in binary floating point, so the
rational arithmetic here reproduces the source exactly.  `fuel` only bounds the
recursion; it strictly exceeds the iteration count at both call sites. -/
def rangeLoop (fuel : Nat) (value bound : ℚ) : List ℚ :=
  match fuel with
  | 0 => []
  | fuel + 1 =>
    if value ≤ bound then value :: rangeLoop fuel (value + 2) bound else []

/-- The numeric values pushed by `buildHandicapRange`: the first loop runs from
`-16.5` while `value <= 0`, the second from `0.5` while `value <= 16.5`, both
stepping by `2.0`. -/
def buildHandicapRangeValues : List ℚ :=
  rangeLoop 32 (-33 / 2) 0 ++ rangeLoop 32 (1 / 2) (33 / 2)

/-- JavaScript `value.toFixed(1)` for a rational whose multiple by ten is an
integer (`toFixed` resolves exact ties towards the larger result, which is what
`round` does). -/
def toFixed1 (v : ℚ) : String :=
  let t : ℤ := round (v * 10)
  (if t < 0 then "-" else "") ++ toString (t.natAbs / 10) ++ "." ++ toString (t.natAbs % 10)

/-- `formatHandicap` from the handicap pages:
`value % 1 === 0 ? value.toFixed(0) : value.toFixed(1)`.  A JavaScript number
satisfies `value % 1 === 0` exactly when it is an integer, i.e. when the
rational modelling it has denominator `1`, in which case `toFixed(0)` prints
the integer itself. -/
def formatHandicap (v : ℚ) : String :=
  if v.den = 1 then toString v.num else toFixed1 v

/-- `buildHandicapRange` as in the source: the formatted labels of the loop
values, in loop order.  The two copies of the function (team page and general
patch page) are textually identical, so this single definition embeds both. -/
def buildHandicapRange : List String :=
  buildHandicapRangeValues.map formatHandicap

/-- JavaScript `Number(x.toFixed(2))`: round to two decimal places.  `toFixed`
resolves an exact tie towards the larger candidate, which is what `round`
does. -/
def roundTo2 (q : ℚ) : ℚ := (round (q * 100) : ℤ) / 100

/-- JavaScript `Number(x.toFixed(1))`: round to one decimal place. -/
def roundTo1 (q : ℚ) : ℚ := (round (q * 10) : ℤ) / 10

/-- A `Record<string, number>` bucket map with integer counts.  The source keys
buckets by the formatted handicap label and reads them with `?? 0`;
`formatHandicap` is injective on `buildHandicapRangeValues` (the formatted
labels are pairwise distinct), so keying by the numeric handicap value with
default `0` is a faithful model. -/
abbrev Buckets := ℚ → ℕ

/-- A `Record<string, number>` map of derived percentages (rational-valued). -/
abbrev Percentages := ℚ → ℚ

/-- `createBuckets` from `src/app/patches/[patch]/page.tsx`: every handicap key
starts at `0`; keys outside the range are also read as `0` (`?? 0`), so the
constant-zero function is the faithful model. -/
def createBuckets : Buckets := fun _ => 0

/-- `applyHandicapRange` from `src/app/patches/[patch]/page.tsx` and
`src/app/patches/[patch]/handicap/general/page.tsx`: for every handicap value
in the range, increment its bucket when `killDifference + handicap > 0`.  The
source iterates over indices of the parallel arrays `handicapRange : string[]`
and `handicapValues : number[] = handicapRange.map(Number)`; both are keyed
here by the numeric value. -/
def applyHandicapRange (killDifference : ℤ) (handicapValues : List ℚ) (bucket : Buckets) :
    Buckets :=
  handicapValues.foldl
    (fun b h => if (killDifference : ℚ) + h > 0 then Function.update b h (b h + 1) else b)
    bucket

/-- `applyHandicap` from `src/app/teams/[slug]/handicap/page.tsx`: identical
bucket update (the team page parses `Number(handicap)` from each label; as in
`applyHandicapRange`, buckets are keyed by the numeric value). -/
def applyHandicap (killDifference : ℤ) (handicapRange : List ℚ) (stats : Buckets) : Buckets :=
  handicapRange.foldl
    (fun b h => if (killDifference : ℚ) + h > 0 then Function.update b h (b h + 1) else b)
    stats

/-- `calculatePercentages` from the patch pages: a fresh map assigning to every
handicap key in the range `count / total * 100` rounded to two decimals when
`total > 0`, and `0` otherwise. -/
def calculatePercentages (handicapRange : List ℚ) (counts : Buckets) (total : ℕ) :
    Percentages :=
  handicapRange.foldl
    (fun p h =>
      Function.update p h
        (if 0 < total then roundTo2 ((counts h : ℚ) / (total : ℚ) * 100) else 0))
    (fun _ => 0)

/-- The three per-category count maps of `TeamHandicapData`. -/
structure CategoryBuckets where
  victories : Buckets
  losses : Buckets
  general : Buckets

/-- The three per-category percentage maps of `TeamHandicapData`. -/
structure CategoryPercentages where
  victories : Percentages
  losses : Percentages
  general : Percentages

/-- The `TeamHandicapData` result type of `src/app/patches/[patch]/page.tsx`. -/
structure TeamHandicapData where
  team : Team
  totalMatches : ℕ
  victories : ℕ
  losses : ℕ
  avgKillDifference : ℚ
  avgDurationMinutes : ℚ
  counts : CategoryBuckets
  percentages : CategoryPercentages

/-- The mutable accumulators of `calculateTeamHandicapData` during its
`matches.forEach` pass. -/
structure TeamAggState where
  totalMatches : ℕ
  victories : ℕ
  losses : ℕ
  killSum : ℤ
  durationSum : ℚ
  counts : CategoryBuckets

/-- The participation test of `calculateTeamHandicapData`: the team id equals
the radiant or the dire team id (`===` on a `string | null` field is false for
`null`). -/
def isParticipant (m : Match) (teamId : String) : Bool :=
  m.radiantTeamId == some teamId || m.direTeamId == some teamId

/-- The signed kill differential as computed by every aggregation loop in the
source: own final score minus opponent final score, from the radiant side when
`radiantTeamId === teamId` and from the dire side otherwise. -/
def killDiff (m : Match) (teamId : String) : ℤ :=
  if m.radiantTeamId == some teamId then m.radiantScore - m.direScore
  else m.direScore - m.radiantScore

/-- The win test of `calculateTeamHandicapData`:
`(isRadiant && match.radiantWin) || (isDire && !match.radiantWin)`. -/
def wonBy (m : Match) (teamId : String) : Bool :=
  (m.radiantTeamId == some teamId && m.radiantWin) ||
    (m.direTeamId == some teamId && !m.radiantWin)

/-- The coverage test of the bucket accumulators: the adjusted margin
`killDifferential + handicap` is strictly positive. -/
def covered (m : Match) (teamId : String) (h : ℚ) : Bool :=
  decide ((killDiff m teamId : ℚ) + h > 0)

/-- One iteration of the `matches.forEach` loop of `calculateTeamHandicapData`:
skip non-participants, otherwise bump the running sums, always feed the
`general` buckets, and feed `victories` or `losses` according to the outcome. -/
def teamAggStep (teamId : String) (handicapValues : List ℚ) (s : TeamAggState) (m : Match) :
    TeamAggState :=
  if !isParticipant m teamId then s
  else
    let killDifference := killDiff m teamId
    let s₁ : TeamAggState :=
      { s with
        totalMatches := s.totalMatches + 1
        killSum := s.killSum + killDifference
        durationSum := s.durationSum + m.duration
        counts :=
          { s.counts with
            general := applyHandicapRange killDifference handicapValues s.counts.general } }
    if wonBy m teamId then
      { s₁ with
        victories := s₁.victories + 1
        counts :=
          { s₁.counts with
            victories := applyHandicapRange killDifference handicapValues s₁.counts.victories } }
    else
      { s₁ with
        losses := s₁.losses + 1
        counts :=
          { s₁.counts with
            losses := applyHandicapRange killDifference handicapValues s₁.counts.losses } }

/-- `calculateTeamHandicapData` from `src/app/patches/[patch]/page.tsx`: one
pass over the matches accumulating counts, then derived averages (guarded
against a zero denominator) and per-category percentages.  `handicapRange` is
the list of numeric handicap values (the source carries the labels and the
parsed values in parallel arrays). -/
def calculateTeamHandicapData (matchList : List Match) (team : Team)
    (handicapRange : List ℚ) : TeamHandicapData :=
  let s := matchList.foldl (teamAggStep team.id handicapRange)
    { totalMatches := 0, victories := 0, losses := 0, killSum := 0, durationSum := 0
      counts := { victories := createBuckets, losses := createBuckets, general := createBuckets } }
  { team := team
    totalMatches := s.totalMatches
    victories := s.victories
    losses := s.losses
    avgKillDifference :=
      if 0 < s.totalMatches then roundTo2 ((s.killSum : ℚ) / (s.totalMatches : ℚ)) else 0
    avgDurationMinutes :=
      if 0 < s.totalMatches then roundTo1 (s.durationSum / (s.totalMatches : ℚ) / 60) else 0
    counts := s.counts
    percentages :=
      { victories := calculatePercentages handicapRange s.counts.victories s.victories
        losses := calculatePercentages handicapRange s.counts.losses s.losses
        general := calculatePercentages handicapRange s.counts.general s.totalMatches } }

/-- The head-to-head tally built by the inline closure of
`PatchHandicapPage` in `src/app/patches/[patch]/page.tsx`. -/
structure HeadToHeadTally where
  total : ℕ
  team1Wins : ℕ
  team2Wins : ℕ
deriving Repr, DecidableEq

/-- The filter of the head-to-head loop: both side ids truthy
(`if (!radiant || !dire) return`) and the two given teams on opposite sides in
either assignment. -/
def pitsAgainst (m : Match) (team1 team2 : String) : Bool :=
  jsTruthy m.radiantTeamId && jsTruthy m.direTeamId &&
    match m.radiantTeamId, m.direTeamId with
    | some radiant, some dire =>
      (radiant == team1 && dire == team2) || (radiant == team2 && dire == team1)
    | _, _ => false

/-- One iteration of the head-to-head `matches.forEach` loop: skip records not
pitting the two teams against each other, then credit the match to `team1Wins`
or `team2Wins` from the `radiantWin` flag and `team1`'s side. -/
def headToHeadStep (team1 team2 : String) (t : HeadToHeadTally) (m : Match) :
    HeadToHeadTally :=
  if pitsAgainst m team1 team2 then
    let team1IsRadiant := m.radiantTeamId == some team1
    let team1Won := (team1IsRadiant && m.radiantWin) || (!team1IsRadiant && !m.radiantWin)
    if team1Won then
      { t with total := t.total + 1, team1Wins := t.team1Wins + 1 }
    else
      { t with total := t.total + 1, team2Wins := t.team2Wins + 1 }
  else t

/-- The head-to-head closure of `PatchHandicapPage`: fold the per-match tally
step over the patch's matches starting from an all-zero tally. -/
def headToHead (matchList : List Match) (team1 team2 : String) : HeadToHeadTally :=
  matchList.foldl (headToHeadStep team1 team2) ⟨0, 0, 0⟩

/-- The `HandicapStats` record of `src/app/teams/[slug]/handicap/page.tsx`. -/
structure HandicapStats where
  totalMatches : ℕ
  wins : ℕ
  losses : ℕ
  handicapStatsWins : Buckets
  handicapStatsLosses : Buckets
  percentagesWins : Percentages
  percentagesLosses : Percentages
  percentagesTotal : Percentages

/-- `createStats` from the team page: all counters zero and every bucket and
percentage map zero-initialised over the handicap range (absent keys read as
zero as well). -/
def createStats : HandicapStats :=
  { totalMatches := 0, wins := 0, losses := 0
    handicapStatsWins := fun _ => 0, handicapStatsLosses := fun _ => 0
    percentagesWins := fun _ => 0, percentagesLosses := fun _ => 0
    percentagesTotal := fun _ => 0 }

/-- One iteration of the `handicapRange.forEach` loop of
`finalizePercentages`: write the win, loss and total percentage of one
handicap key from the accumulated buckets, each division guarded by its
category total (`stats.wins ? … : 0`, etc.). -/
def finalizeStep (st : HandicapStats) (h : ℚ) : HandicapStats :=
  let wins := st.handicapStatsWins h
  let losses := st.handicapStatsLosses h
  { st with
    percentagesWins :=
      Function.update st.percentagesWins h
        (if 0 < st.wins then roundTo2 ((wins : ℚ) / (st.wins : ℚ) * 100) else 0)
    percentagesLosses :=
      Function.update st.percentagesLosses h
        (if 0 < st.losses then roundTo2 ((losses : ℚ) / (st.losses : ℚ) * 100) else 0)
    percentagesTotal :=
      Function.update st.percentagesTotal h
        (if 0 < st.wins + st.losses then
          roundTo2 (((wins : ℚ) + (losses : ℚ)) / ((st.wins : ℚ) + (st.losses : ℚ)) * 100)
        else 0) }

/-- `finalizePercentages` from the team page: run `finalizeStep` over every
handicap key. -/
def finalizePercentages (stats : HandicapStats) (handicapRange : List ℚ) : HandicapStats :=
  handicapRange.foldl finalizeStep stats

/-- The per-match update of one `HandicapStats` record in the
`matches.forEach` loop of `TeamHandicapPage`: `totalMatches += 1`, then the
win or loss counter and the corresponding bucket map via `applyHandicap`. -/
def teamPageBump (handicapRange : List ℚ) (teamWon : Bool) (killDifference : ℤ)
    (st : HandicapStats) : HandicapStats :=
  let st₁ : HandicapStats := { st with totalMatches := st.totalMatches + 1 }
  if teamWon then
    { st₁ with
      wins := st₁.wins + 1
      handicapStatsWins := applyHandicap killDifference handicapRange st₁.handicapStatsWins }
  else
    { st₁ with
      losses := st₁.losses + 1
      handicapStatsLosses := applyHandicap killDifference handicapRange st₁.handicapStatsLosses }

/-- JavaScript `Map` get-or-create-then-mutate, as used for `leagueStats` and
`patchStats` on the team page: an existing key is updated in place (keeping its
position), a missing key is created from `createStats` and appended (JS `Map`s
iterate in insertion order). -/
def upsert (k : String) (f : HandicapStats → HandicapStats) :
    List (String × HandicapStats) → List (String × HandicapStats)
  | [] => [(k, f createStats)]
  | (k', v) :: rest =>
    if k' == k then (k', f v) :: rest else (k', v) :: upsert k f rest

/-- The three accumulator maps of `TeamHandicapPage`'s `matches.forEach` loop. -/
structure TeamPageState where
  overall : HandicapStats
  leagueStats : List (String × HandicapStats)
  patchStats : List (String × HandicapStats)

/-- One iteration of the `matches.forEach` loop of `TeamHandicapPage`.  Note
that the loop has no participation test: `isRadiant` is
`match.radiantTeamId === team.id` and every other record — including one whose
two side ids both differ from the team — is processed as a dire-side match.
The overall stats count every record; the league and patch groups only records
whose `leagueId` (resp. `patchId`) is truthy (non-empty). -/
def teamPageStep (teamId : String) (handicapRange : List ℚ) (s : TeamPageState) (m : Match) :
    TeamPageState :=
  let isRadiant := m.radiantTeamId == some teamId
  let teamWon := (isRadiant && m.radiantWin) || (!isRadiant && !m.radiantWin)
  let killDifference := if isRadiant then m.radiantScore - m.direScore
    else m.direScore - m.radiantScore
  let s₁ : TeamPageState :=
    { s with overall := teamPageBump handicapRange teamWon killDifference s.overall }
  let s₂ : TeamPageState :=
    if m.leagueId != "" then
      { s₁ with
        leagueStats :=
          upsert m.leagueId (teamPageBump handicapRange teamWon killDifference) s₁.leagueStats }
    else s₁
  if m.patchId != "" then
    { s₂ with
      patchStats :=
        upsert m.patchId (teamPageBump handicapRange teamWon killDifference) s₂.patchStats }
  else s₂

/-- The full `matches.forEach` aggregation pass of `TeamHandicapPage`,
producing the overall stats and the per-league and per-patch groups. -/
def teamPageAggregate (matchList : List Match) (teamId : String)
    (handicapRange : List ℚ) : TeamPageState :=
  matchList.foldl (teamPageStep teamId handicapRange)
    { overall := createStats, leagueStats := [], patchStats := [] }

/-- The descending-total comparator shared by every row sort in the source:
`(a, b) => b.stats.totalMatches - a.stats.totalMatches`.  An element `a` may
stay before `b` exactly when the comparator is non-positive, i.e. when
`b.totalMatches ≤ a.totalMatches`; JavaScript `Array.prototype.sort` is
stable, and `List.mergeSort` with this relation is the stable sort consistent
with the comparator. -/
def byTotalDesc (a b : String × HandicapStats) : Bool :=
  decide (b.2.totalMatches ≤ a.2.totalMatches)

/-- `leagueRows` from `TeamHandicapPage`: finalize the percentages of every
league group and sort the rows by descending total match count.  The lookup of
league display names is presentation-only and omitted. -/
def leagueRows (matchList : List Match) (teamId : String) (handicapRange : List ℚ) :
    List (String × HandicapStats) :=
  (((teamPageAggregate matchList teamId handicapRange).leagueStats).map
      (fun e => (e.1, finalizePercentages e.2 handicapRange))).mergeSort byTotalDesc

/-- `patchRows` from `TeamHandicapPage`: the same construction over the patch
groups. -/
def patchRows (matchList : List Match) (teamId : String) (handicapRange : List ℚ) :
    List (String × HandicapStats) :=
  (((teamPageAggregate matchList teamId handicapRange).patchStats).map
      (fun e => (e.1, finalizePercentages e.2 handicapRange))).mergeSort byTotalDesc

/-- The `TeamBuckets` record of
`src/app/patches/[patch]/handicap/general/page.tsx`. -/
structure TeamBuckets where
  totalMatches : ℕ
  victories : ℕ
  losses : ℕ
  counts : CategoryBuckets
  percentages : CategoryPercentages

/-- The zero-initialised `TeamBuckets` value set by `initBucketsByTeam`. -/
def zeroTeamBuckets : TeamBuckets :=
  { totalMatches := 0, victories := 0, losses := 0
    counts := { victories := createBuckets, losses := createBuckets, general := createBuckets }
    percentages :=
      { victories := fun _ => 0, losses := fun _ => 0, general := fun _ => 0 } }

/-- JavaScript `Map.prototype.set` on an association list in insertion order:
an existing key keeps its position, a new key is appended. -/
def mapSet (l : List (String × TeamBuckets)) (k : String) (v : TeamBuckets) :
    List (String × TeamBuckets) :=
  match l with
  | [] => [(k, v)]
  | (k', v') :: rest =>
    if k' == k then (k', v) :: rest else (k', v') :: mapSet rest k v

/-- JavaScript `Map.prototype.get` on an association list (first match). -/
def mapGet? (l : List (String × TeamBuckets)) (k : String) : Option TeamBuckets :=
  match l with
  | [] => none
  | (k', v) :: rest => if k' == k then some v else mapGet? rest k

/-- Get-then-mutate on an association list: if the key is absent nothing
happens (`if (!buckets) return`), otherwise update its value in place. -/
def mapUpdate (k : String) (f : TeamBuckets → TeamBuckets) :
    List (String × TeamBuckets) → List (String × TeamBuckets)
  | [] => []
  | (k', v) :: rest =>
    if k' == k then (k', f v) :: rest else (k', v) :: mapUpdate k f rest

/-- `initBucketsByTeam` from the general handicap page: one zeroed
`TeamBuckets` per team id, in team order. -/
def initBucketsByTeam (teams : List Team) : List (String × TeamBuckets) :=
  teams.foldl (fun acc t => mapSet acc t.id zeroTeamBuckets) []

/-- `accumulateMatchForTeam` from the general handicap page: look the side's
team up in the buckets map (absent teams are skipped), bump `totalMatches`,
feed the `general` buckets and the outcome category of that side. -/
def accumulateMatchForTeam (m : Match) (teamId : String) (isRadiant : Bool)
    (handicapValues : List ℚ) (bucketsByTeam : List (String × TeamBuckets)) :
    List (String × TeamBuckets) :=
  mapUpdate teamId
    (fun buckets =>
      let killDifference := if isRadiant then m.radiantScore - m.direScore
        else m.direScore - m.radiantScore
      let teamWon := if isRadiant then m.radiantWin else !m.radiantWin
      let b₁ : TeamBuckets :=
        { buckets with
          totalMatches := buckets.totalMatches + 1
          counts :=
            { buckets.counts with
              general :=
                applyHandicapRange killDifference handicapValues buckets.counts.general } }
      if teamWon then
        { b₁ with
          victories := b₁.victories + 1
          counts :=
            { b₁.counts with
              victories :=
                applyHandicapRange killDifference handicapValues b₁.counts.victories } }
      else
        { b₁ with
          losses := b₁.losses + 1
          counts :=
            { b₁.counts with
              losses :=
                applyHandicapRange killDifference handicapValues b₁.counts.losses } })
    bucketsByTeam

/-- One iteration of the `matches.forEach` loop of the general handicap page:
accumulate for the radiant side when its id is truthy, then for the dire side
when its id is truthy. -/
def generalPageStep (handicapValues : List ℚ) (acc : List (String × TeamBuckets))
    (m : Match) : List (String × TeamBuckets) :=
  let acc₁ :=
    match m.radiantTeamId with
    | some radiant =>
      if radiant != "" then accumulateMatchForTeam m radiant true handicapValues acc else acc
    | none => acc
  match m.direTeamId with
  | some dire =>
    if dire != "" then accumulateMatchForTeam m dire false handicapValues acc₁ else acc₁
  | none => acc₁

/-- The whole accumulation pass of the general handicap page. -/
def generalBucketsByTeam (matchList : List Match) (teams : List Team)
    (handicapValues : List ℚ) : List (String × TeamBuckets) :=
  matchList.foldl (generalPageStep handicapValues) (initBucketsByTeam teams)

/-- The percentage block computed per row of the general handicap page. -/
def withGeneralPercentages (stats : TeamBuckets) (handicapRange : List ℚ) : TeamBuckets :=
  { stats with
    percentages :=
      { victories := calculatePercentages handicapRange stats.counts.victories stats.victories
        losses := calculatePercentages handicapRange stats.counts.losses stats.losses
        general := calculatePercentages handicapRange stats.counts.general stats.totalMatches } }

/-- The descending-total row comparator of the general handicap page (same
comparator as `byTotalDesc`, over `Team × TeamBuckets` rows). -/
def byTotalDescTeam (a b : Team × TeamBuckets) : Bool :=
  decide (b.2.totalMatches ≤ a.2.totalMatches)

/-- `rows` from the general handicap page: for every (possibly search-filtered)
team, look its buckets up (`null` rows are dropped by `.filter(Boolean)`),
attach percentages and sort by descending total match count.  `teams` feeds the
accumulation, `filteredTeams` the rendered rows, exactly as in the source. -/
def generalRows (matchList : List Match) (teams filteredTeams : List Team)
    (handicapValues : List ℚ) : List (Team × TeamBuckets) :=
  let bucketsByTeam := generalBucketsByTeam matchList teams handicapValues
  (filteredTeams.filterMap
      (fun team =>
        (mapGet? bucketsByTeam team.id).map
          (fun stats => (team, withGeneralPercentages stats handicapValues)))).mergeSort
    byTotalDescTeam

/-! ### Concrete sample data for evaluation -/

/-- A malformed record with no assigned side (both team ids `null`), the
shape named by the spec's error-handling section. -/
def exMatchNoSides : Match :=
  { id := "m0", leagueId := "", duration := 0, direScore := 10, radiantScore := 30,
    radiantWin := true, radiantTeamId := none, direTeamId := none, patchId := "" }

/-- A concrete team used to evaluate the aggregators. -/
def exTeam : Team := { id := "T", name := "Team T", slug := "team-t" }

/-- A radiant-side win for team `T`: kill differential `+20`. -/
def exMatchWin : Match :=
  { id := "m1", leagueId := "L1", duration := 1800, direScore := 10, radiantScore := 30,
    radiantWin := true, radiantTeamId := some "T", direTeamId := some "U", patchId := "P1" }

/-- A dire-side loss for team `T`: kill differential `-20`. -/
def exMatchLoss : Match :=
  { id := "m2", leagueId := "L1", duration := 2400, direScore := 10, radiantScore := 30,
    radiantWin := true, radiantTeamId := some "U", direTeamId := some "T", patchId := "P1" }

/-! ### Basic lemmas about the bucket accumulator -/

theorem applyHandicapRange_apply (kd : ℤ) (l : List ℚ) (b : Buckets) (h : ℚ) :
    applyHandicapRange kd l b h =
      b h + (if (kd : ℚ) + h > 0 then l.count h else 0) := by
  induction l generalizing b with
  | nil => simp [applyHandicapRange]
  | cons a l ih =>
    simp only [applyHandicapRange, List.foldl_cons] at ih ⊢
    rw [ih]
    by_cases hpos : (kd : ℚ) + a > 0
    · by_cases hha : h = a
      · subst hha
        simp [hpos, List.count_cons, Function.update_same]
        omega
      · simp [hpos, List.count_cons, Function.update_noteq hha, Ne.symm hha]
    · by_cases hha : h = a
      · subst hha
        simp [hpos, List.count_cons]
      · simp [hpos, List.count_cons, Ne.symm hha]

theorem applyHandicap_eq_applyHandicapRange : applyHandicap = applyHandicapRange := rfl

/-! ### Characterization of the `calculateTeamHandicapData` pass -/

theorem foldl_teamAggStep_totalMatches (tid : String) (hv : List ℚ) (ms : List Match)
    (s : TeamAggState) :
    (ms.foldl (teamAggStep tid hv) s).totalMatches =
      s.totalMatches + ms.countP (fun m => isParticipant m tid) := by
  induction ms generalizing s with
  | nil => simp
  | cons m ms ih =>
    rw [List.foldl_cons, ih, List.countP_cons]
    cases hp : isParticipant m tid with
    | false => simp [teamAggStep, hp]
    | true =>
      cases hw : wonBy m tid <;> simp [teamAggStep, hp, hw] <;> omega

theorem foldl_teamAggStep_victories (tid : String) (hv : List ℚ) (ms : List Match)
    (s : TeamAggState) :
    (ms.foldl (teamAggStep tid hv) s).victories =
      s.victories + ms.countP (fun m => isParticipant m tid && wonBy m tid) := by
  induction ms generalizing s with
  | nil => simp
  | cons m ms ih =>
    rw [List.foldl_cons, ih, List.countP_cons]
    cases hp : isParticipant m tid with
    | false => simp [teamAggStep, hp]
    | true =>
      cases hw : wonBy m tid <;> simp [teamAggStep, hp, hw] <;> omega

theorem foldl_teamAggStep_losses (tid : String) (hv : List ℚ) (ms : List Match)
    (s : TeamAggState) :
    (ms.foldl (teamAggStep tid hv) s).losses =
      s.losses + ms.countP (fun m => isParticipant m tid && !wonBy m tid) := by
  induction ms generalizing s with
  | nil => simp
  | cons m ms ih =>
    rw [List.foldl_cons, ih, List.countP_cons]
    cases hp : isParticipant m tid with
    | false => simp [teamAggStep, hp]
    | true =>
      cases hw : wonBy m tid <;> simp [teamAggStep, hp, hw] <;> omega

theorem foldl_teamAggStep_general (tid : String) (hv : List ℚ) (ms : List Match)
    (s : TeamAggState) (h : ℚ) :
    (ms.foldl (teamAggStep tid hv) s).counts.general h =
      s.counts.general h +
        ms.countP (fun m => isParticipant m tid && covered m tid h) * hv.count h := by
  induction ms generalizing s with
  | nil => simp
  | cons m ms ih =>
    rw [List.foldl_cons, ih, List.countP_cons]
    cases hp : isParticipant m tid with
    | false => simp [teamAggStep, hp]
    | true =>
      cases hc : covered m tid h with
      | false =>
        have hc' : ¬ ((killDiff m tid : ℚ) + h > 0) := by
          simpa [covered] using hc
        cases hw : wonBy m tid <;>
          simp [teamAggStep, hp, hw, applyHandicapRange_apply, hc']
      | true =>
        have hc' : (killDiff m tid : ℚ) + h > 0 := by
          simpa [covered] using hc
        cases hw : wonBy m tid <;>
          simp [teamAggStep, hp, hw, applyHandicapRange_apply, hc'] <;> ring

theorem foldl_teamAggStep_victories_bucket (tid : String) (hv : List ℚ) (ms : List Match)
    (s : TeamAggState) (h : ℚ) :
    (ms.foldl (teamAggStep tid hv) s).counts.victories h =
      s.counts.victories h +
        ms.countP (fun m => isParticipant m tid && wonBy m tid && covered m tid h) *
          hv.count h := by
  induction ms generalizing s with
  | nil => simp
  | cons m ms ih =>
    rw [List.foldl_cons, ih, List.countP_cons]
    cases hp : isParticipant m tid with
    | false => simp [teamAggStep, hp]
    | true =>
      cases hc : covered m tid h with
      | false =>
        have hc' : ¬ ((killDiff m tid : ℚ) + h > 0) := by
          simpa [covered] using hc
        cases hw : wonBy m tid <;>
          simp [teamAggStep, hp, hw, applyHandicapRange_apply, hc']
      | true =>
        have hc' : (killDiff m tid : ℚ) + h > 0 := by
          simpa [covered] using hc
        cases hw : wonBy m tid <;>
          simp [teamAggStep, hp, hw, applyHandicapRange_apply, hc'] <;> ring

theorem foldl_teamAggStep_losses_bucket (tid : String) (hv : List ℚ) (ms : List Match)
    (s : TeamAggState) (h : ℚ) :
    (ms.foldl (teamAggStep tid hv) s).counts.losses h =
      s.counts.losses h +
        ms.countP (fun m => isParticipant m tid && !wonBy m tid && covered m tid h) *
          hv.count h := by
  induction ms generalizing s with
  | nil => simp
  | cons m ms ih =>
    rw [List.foldl_cons, ih, List.countP_cons]
    cases hp : isParticipant m tid with
    | false => simp [teamAggStep, hp]
    | true =>
      cases hc : covered m tid h with
      | false =>
        have hc' : ¬ ((killDiff m tid : ℚ) + h > 0) := by
          simpa [covered] using hc
        cases hw : wonBy m tid <;>
          simp [teamAggStep, hp, hw, applyHandicapRange_apply, hc']
      | true =>
        have hc' : (killDiff m tid : ℚ) + h > 0 := by
          simpa [covered] using hc
        cases hw : wonBy m tid <;>
          simp [teamAggStep, hp, hw, applyHandicapRange_apply, hc'] <;> ring

/-! ### Counting helpers -/

theorem countP_split {α : Type} (p q : α → Bool) (l : List α) :
    l.countP p =
      l.countP (fun a => p a && q a) + l.countP (fun a => p a && !q a) := by
  induction l with
  | nil => simp
  | cons a l ih =>
    simp only [List.countP_cons]
    cases hp : p a <;> cases hq : q a <;> simp [hp, hq] <;> omega

theorem countP_le_countP {α : Type} {p q : α → Bool} (l : List α)
    (hpq : ∀ a, p a = true → q a = true) : l.countP p ≤ l.countP q := by
  induction l with
  | nil => simp
  | cons a l ih =>
    simp only [List.countP_cons]
    cases hp : p a
    · cases hq : q a <;> simp <;> omega
    · rw [hpq a hp] <;> simp <;> omega

/-! ### Value-at-key lemmas for the percentage folds -/

theorem foldl_update_not_mem {A : Type} (v : ℚ → A) {h : ℚ} :
    ∀ (l : List ℚ) (p0 : ℚ → A), h ∉ l →
      (l.foldl (fun p x => Function.update p x (v x)) p0) h = p0 h
  | [], _, _ => rfl
  | a :: l, p0, hnot => by
    rw [List.foldl_cons,
      foldl_update_not_mem v l _ (fun hm => hnot (List.mem_cons_of_mem a hm))]
    have hna : h ≠ a := fun hx => hnot (by rw [hx]; exact List.mem_cons_self a l)
    exact Function.update_noteq hna _ p0

theorem foldl_update_mem {A : Type} (v : ℚ → A) {h : ℚ} :
    ∀ (l : List ℚ) (p0 : ℚ → A), h ∈ l →
      (l.foldl (fun p x => Function.update p x (v x)) p0) h = v h
  | [], _, hmem => absurd hmem (List.not_mem_nil h)
  | a :: l, p0, hmem => by
    rw [List.foldl_cons]
    by_cases hl : h ∈ l
    · exact foldl_update_mem v l _ hl
    · have hha : h = a := by
        rcases List.mem_cons.mp hmem with hha | hl'
        · exact hha
        · exact absurd hl' hl
      subst hha
      rw [foldl_update_not_mem v l _ hl, Function.update_same]

theorem calculatePercentages_apply (range : List ℚ) (counts : Buckets) (total : ℕ)
    {h : ℚ} (hmem : h ∈ range) :
    calculatePercentages range counts total h =
      if 0 < total then roundTo2 ((counts h : ℚ) / (total : ℚ) * 100) else 0 :=
  foldl_update_mem _ range _ hmem

/-! ### Lemmas about `finalizePercentages` -/

theorem finalizeStep_counters (st : HandicapStats) (h : ℚ) :
    (finalizeStep st h).totalMatches = st.totalMatches ∧
      (finalizeStep st h).wins = st.wins ∧
      (finalizeStep st h).losses = st.losses ∧
      (finalizeStep st h).handicapStatsWins = st.handicapStatsWins ∧
      (finalizeStep st h).handicapStatsLosses = st.handicapStatsLosses := by
  simp [finalizeStep]

theorem finalizePercentages_counters (st : HandicapStats) (l : List ℚ) :
    (finalizePercentages st l).totalMatches = st.totalMatches ∧
      (finalizePercentages st l).wins = st.wins ∧
      (finalizePercentages st l).losses = st.losses ∧
      (finalizePercentages st l).handicapStatsWins = st.handicapStatsWins ∧
      (finalizePercentages st l).handicapStatsLosses = st.handicapStatsLosses := by
  induction l generalizing st with
  | nil => simp [finalizePercentages]
  | cons a l ih =>
    have step := finalizeStep_counters st a
    have rest := ih (finalizeStep st a)
    simp only [finalizePercentages, List.foldl_cons] at rest ⊢
    exact ⟨rest.1.trans step.1, (rest.2.1).trans step.2.1, (rest.2.2.1).trans step.2.2.1,
      (rest.2.2.2.1).trans step.2.2.2.1, (rest.2.2.2.2).trans step.2.2.2.2⟩

theorem finalizePercentages_not_mem {h : ℚ} :
    ∀ (l : List ℚ) (st : HandicapStats), h ∉ l →
      (finalizePercentages st l).percentagesWins h = st.percentagesWins h ∧
        (finalizePercentages st l).percentagesLosses h = st.percentagesLosses h ∧
        (finalizePercentages st l).percentagesTotal h = st.percentagesTotal h
  | [], _, _ => ⟨rfl, rfl, rfl⟩
  | a :: l, st, hnot => by
    have hna : h ≠ a := fun hx => hnot (by rw [hx]; exact List.mem_cons_self a l)
    have rest :=
      finalizePercentages_not_mem l (finalizeStep st a)
        (fun hm => hnot (List.mem_cons_of_mem a hm))
    simp only [finalizePercentages, List.foldl_cons] at rest ⊢
    refine ⟨rest.1.trans ?_, rest.2.1.trans ?_, rest.2.2.trans ?_⟩ <;>
      simp [finalizeStep, Function.update_noteq hna]

theorem finalizePercentages_apply {h : ℚ} :
    ∀ (l : List ℚ) (st : HandicapStats), h ∈ l →
      (finalizePercentages st l).percentagesWins h =
          (if 0 < st.wins then
            roundTo2 ((st.handicapStatsWins h : ℚ) / (st.wins : ℚ) * 100) else 0) ∧
        (finalizePercentages st l).percentagesLosses h =
          (if 0 < st.losses then
            roundTo2 ((st.handicapStatsLosses h : ℚ) / (st.losses : ℚ) * 100) else 0) ∧
        (finalizePercentages st l).percentagesTotal h =
          (if 0 < st.wins + st.losses then
            roundTo2 (((st.handicapStatsWins h : ℚ) + (st.handicapStatsLosses h : ℚ)) /
              ((st.wins : ℚ) + (st.losses : ℚ)) * 100)
          else 0)
  | [], _, hmem => absurd hmem (List.not_mem_nil h)
  | a :: l, st, hmem => by
    by_cases hl : h ∈ l
    · have rest := finalizePercentages_apply l (finalizeStep st a) hl
      have step := finalizeStep_counters st a
      rw [step.2.1, step.2.2.1, step.2.2.2.1, step.2.2.2.2] at rest
      simpa only [finalizePercentages, List.foldl_cons] using rest
    · have hha : h = a := by
        rcases List.mem_cons.mp hmem with hha | hl'
        · exact hha
        · exact absurd hl' hl
      subst hha
      have rest := finalizePercentages_not_mem l (finalizeStep st h) hl
      simp only [finalizePercentages, List.foldl_cons] at rest ⊢
      refine ⟨rest.1.trans ?_, rest.2.1.trans ?_, rest.2.2.trans ?_⟩ <;>
        simp [finalizeStep, Function.update_same]

/-! ### Facts about the generated handicap range -/

theorem range_values_eq :
    buildHandicapRangeValues =
      [-33/2, -29/2, -25/2, -21/2, -17/2, -13/2, -9/2, -5/2, -1/2,
        1/2, 5/2, 9/2, 13/2, 17/2, 21/2, 25/2, 29/2, 33/2] := by
  with_unfolding_all decide

theorem range_nodup : buildHandicapRangeValues.Nodup := by
  with_unfolding_all decide

theorem range_count_eq_one {h : ℚ} (hmem : h ∈ buildHandicapRangeValues) :
    buildHandicapRangeValues.count h = 1 :=
  List.count_eq_one_of_mem range_nodup hmem

theorem range_den_two {h : ℚ} (hmem : h ∈ buildHandicapRangeValues) : h.den = 2 := by
  have hall : buildHandicapRangeValues.all (fun v => v.den == 2) = true := by
    with_unfolding_all decide
  simpa using List.all_eq_true.mp hall h hmem

theorem range_sorted : buildHandicapRangeValues.Pairwise (· ≤ ·) := by
  rw [range_values_eq]
  with_unfolding_all decide

/-- A half-integer never cancels an integer: the adjusted margin of an
integral kill differential and a handicap from the range is nonzero. -/
theorem intCast_add_range_ne_zero {h : ℚ} (hmem : h ∈ buildHandicapRangeValues)
    (d : ℤ) : (d : ℚ) + h ≠ 0 := by
  intro hzero
  have hden : h.den = 2 := range_den_two hmem
  have : h = -(d : ℚ) := by linarith
  rw [this] at hden
  have : ((-d : ℤ) : ℚ).den = 1 := Rat.den_intCast (-d)
  rw [Int.cast_neg] at this
  omega

/-! ### Lemmas about the head-to-head closure -/

theorem pitsAgainst_symm (m : Match) (team1 team2 : String) :
    pitsAgainst m team1 team2 = pitsAgainst m team2 team1 := by
  rcases m with ⟨_, _, _, _, _, _, r, d, _⟩
  cases r <;> cases d <;> simp only [pitsAgainst] <;>
    cases hr : _ == team1 <;> cases hd : _ == team2 <;>
      simp_all [Bool.and_comm, Bool.or_comm]

theorem headToHeadStep_total (team1 team2 : String) (t : HeadToHeadTally) (m : Match) :
    (headToHeadStep team1 team2 t m).total =
      t.total + (if pitsAgainst m team1 team2 then 1 else 0) := by
  cases hp : pitsAgainst m team1 team2
  · simp [headToHeadStep, hp]
  · simp [headToHeadStep, hp]
    split <;> rfl

theorem headToHead_total (matchList : List Match) (team1 team2 : String) :
    (headToHead matchList team1 team2).total =
      matchList.countP (fun m => pitsAgainst m team1 team2) := by
  suffices hgen : ∀ (t : HeadToHeadTally),
      (matchList.foldl (headToHeadStep team1 team2) t).total =
        t.total + matchList.countP (fun m => pitsAgainst m team1 team2) by
    simpa [headToHead] using hgen ⟨0, 0, 0⟩
  induction matchList with
  | nil => intro t; simp
  | cons m ms ih =>
    intro t
    rw [List.foldl_cons, ih, headToHeadStep_total, List.countP_cons]
    cases hp : pitsAgainst m team1 team2 <;> simp [hp] <;> omega

theorem headToHeadStep_wins_sum (team1 team2 : String) (t : HeadToHeadTally) (m : Match) :
    (headToHeadStep team1 team2 t m).team1Wins +
        (headToHeadStep team1 team2 t m).team2Wins =
      t.team1Wins + t.team2Wins + (if pitsAgainst m team1 team2 then 1 else 0) := by
  cases hp : pitsAgainst m team1 team2
  · simp [headToHeadStep, hp]
  · simp [headToHeadStep, hp]
    split <;> simp <;> omega

theorem headToHead_wins_eq_total (matchList : List Match) (team1 team2 : String) :
    (headToHead matchList team1 team2).team1Wins +
        (headToHead matchList team1 team2).team2Wins =
      (headToHead matchList team1 team2).total := by
  suffices hgen : ∀ (t : HeadToHeadTally), t.team1Wins + t.team2Wins = t.total →
      (matchList.foldl (headToHeadStep team1 team2) t).team1Wins +
          (matchList.foldl (headToHeadStep team1 team2) t).team2Wins =
        (matchList.foldl (headToHeadStep team1 team2) t).total by
    exact hgen ⟨0, 0, 0⟩ rfl
  induction matchList with
  | nil => intro t ht; simpa using ht
  | cons m ms ih =>
    intro t ht
    rw [List.foldl_cons]
    refine ih (headToHeadStep team1 team2 t m) ?_
    rw [headToHeadStep_wins_sum, headToHeadStep_total, ht]

/-! ### Lemmas about the team-page aggregation -/

theorem teamAggStep_not_participant {m : Match} {tid : String}
    (hp : isParticipant m tid = false) (hv : List ℚ) (s : TeamAggState) :
    teamAggStep tid hv s m = s := by
  simp [teamAggStep, hp]

theorem teamPageBump_totalMatches (hv : List ℚ) (w : Bool) (kd : ℤ) (st : HandicapStats) :
    (teamPageBump hv w kd st).totalMatches = st.totalMatches + 1 := by
  cases w <;> simp [teamPageBump]

theorem teamPageBump_wins_losses (hv : List ℚ) (w : Bool) (kd : ℤ) (st : HandicapStats) :
    (teamPageBump hv w kd st).wins + (teamPageBump hv w kd st).losses =
      st.wins + st.losses + 1 := by
  cases w <;> simp [teamPageBump] <;> omega

theorem upsert_map_sum (k : String) (f : HandicapStats → HandicapStats)
    (hf : ∀ st, (f st).totalMatches = st.totalMatches + 1) :
    ∀ l : List (String × HandicapStats),
      ((upsert k f l).map (fun e => e.2.totalMatches)).sum =
        ((l.map (fun e => e.2.totalMatches)).sum) + 1
  | [] => by simp [upsert, hf, createStats]
  | (k', v) :: rest => by
    by_cases hk : (k' == k) = true
    · simp only [upsert, hk, if_true, List.map_cons, List.sum_cons, hf]
      omega
    · simp only [upsert, hk, if_false, Bool.false_eq_true, List.map_cons, List.sum_cons,
        upsert_map_sum k f hf rest]
      omega

theorem teamPageStep_overall (tid : String) (hv : List ℚ) (s : TeamPageState) (m : Match) :
    (teamPageStep tid hv s m).overall.totalMatches = s.overall.totalMatches + 1 := by
  by_cases hl : (m.leagueId != "") = true <;> by_cases hp : (m.patchId != "") = true <;>
    simp [teamPageStep, hl, hp, teamPageBump_totalMatches]

theorem teamPageStep_overall_wins_losses (tid : String) (hv : List ℚ) (s : TeamPageState)
    (m : Match) :
    (teamPageStep tid hv s m).overall.wins + (teamPageStep tid hv s m).overall.losses =
      s.overall.wins + s.overall.losses + 1 := by
  by_cases hl : (m.leagueId != "") = true <;> by_cases hp : (m.patchId != "") = true <;>
    simp [teamPageStep, hl, hp, teamPageBump_wins_losses]

theorem teamPageStep_league_sum (tid : String) (hv : List ℚ) (s : TeamPageState) (m : Match) :
    ((teamPageStep tid hv s m).leagueStats.map (fun e => e.2.totalMatches)).sum =
      (s.leagueStats.map (fun e => e.2.totalMatches)).sum +
        (if m.leagueId != "" then 1 else 0) := by
  by_cases hl : (m.leagueId != "") = true <;> by_cases hp : (m.patchId != "") = true <;>
    simp [teamPageStep, hl, hp,
      upsert_map_sum _ _ (fun st => teamPageBump_totalMatches hv _ _ st)]

theorem teamPageStep_patch_sum (tid : String) (hv : List ℚ) (s : TeamPageState) (m : Match) :
    ((teamPageStep tid hv s m).patchStats.map (fun e => e.2.totalMatches)).sum =
      (s.patchStats.map (fun e => e.2.totalMatches)).sum +
        (if m.patchId != "" then 1 else 0) := by
  by_cases hl : (m.leagueId != "") = true <;> by_cases hp : (m.patchId != "") = true <;>
    simp [teamPageStep, hl, hp,
      upsert_map_sum _ _ (fun st => teamPageBump_totalMatches hv _ _ st)]

theorem teamPageAggregate_overall_total (ms : List Match) (tid : String) (hv : List ℚ) :
    (teamPageAggregate ms tid hv).overall.totalMatches = ms.length := by
  suffices hgen : ∀ s : TeamPageState,
      ((ms.foldl (teamPageStep tid hv) s).overall.totalMatches) =
        s.overall.totalMatches + ms.length by
    simpa [teamPageAggregate, createStats] using
      hgen { overall := createStats, leagueStats := [], patchStats := [] }
  induction ms with
  | nil => intro s; simp
  | cons m ms ih =>
    intro s
    rw [List.foldl_cons, ih, teamPageStep_overall]
    simp only [List.length_cons]
    omega

theorem teamPageAggregate_overall_wins_losses (ms : List Match) (tid : String) (hv : List ℚ) :
    (teamPageAggregate ms tid hv).overall.wins + (teamPageAggregate ms tid hv).overall.losses =
      ms.length := by
  suffices hgen : ∀ s : TeamPageState,
      ((ms.foldl (teamPageStep tid hv) s).overall.wins +
          (ms.foldl (teamPageStep tid hv) s).overall.losses) =
        s.overall.wins + s.overall.losses + ms.length by
    simpa [teamPageAggregate, createStats] using
      hgen { overall := createStats, leagueStats := [], patchStats := [] }
  induction ms with
  | nil => intro s; simp
  | cons m ms ih =>
    intro s
    rw [List.foldl_cons, ih, teamPageStep_overall_wins_losses]
    simp only [List.length_cons]
    omega

theorem teamPageAggregate_league_sum (ms : List Match) (tid : String) (hv : List ℚ) :
    ((teamPageAggregate ms tid hv).leagueStats.map (fun e => e.2.totalMatches)).sum =
      ms.countP (fun m => m.leagueId != "") := by
  suffices hgen : ∀ s : TeamPageState,
      (((ms.foldl (teamPageStep tid hv) s).leagueStats.map (fun e => e.2.totalMatches)).sum) =
        (s.leagueStats.map (fun e => e.2.totalMatches)).sum +
          ms.countP (fun m => m.leagueId != "") by
    simpa [teamPageAggregate] using
      hgen { overall := createStats, leagueStats := [], patchStats := [] }
  induction ms with
  | nil => intro s; simp
  | cons m ms ih =>
    intro s
    rw [List.foldl_cons, ih, teamPageStep_league_sum, List.countP_cons]
    cases hm : (m.leagueId != "") <;> simp [hm] <;> omega

theorem teamPageAggregate_patch_sum (ms : List Match) (tid : String) (hv : List ℚ) :
    ((teamPageAggregate ms tid hv).patchStats.map (fun e => e.2.totalMatches)).sum =
      ms.countP (fun m => m.patchId != "") := by
  suffices hgen : ∀ s : TeamPageState,
      (((ms.foldl (teamPageStep tid hv) s).patchStats.map (fun e => e.2.totalMatches)).sum) =
        (s.patchStats.map (fun e => e.2.totalMatches)).sum +
          ms.countP (fun m => m.patchId != "") by
    simpa [teamPageAggregate] using
      hgen { overall := createStats, leagueStats := [], patchStats := [] }
  induction ms with
  | nil => intro s; simp
  | cons m ms ih =>
    intro s
    rw [List.foldl_cons, ih, teamPageStep_patch_sum, List.countP_cons]
    cases hm : (m.patchId != "") <;> simp [hm] <;> omega

/-! ### Sortedness of the row sorts -/

theorem byTotalDesc_trans (a b c : String × HandicapStats) :
    byTotalDesc a b → byTotalDesc b c → byTotalDesc a c := by
  simp only [byTotalDesc, decide_eq_true_eq]
  omega

theorem byTotalDesc_total (a b : String × HandicapStats) :
    byTotalDesc a b || byTotalDesc b a := by
  simp only [byTotalDesc, Bool.or_eq_true, decide_eq_true_eq]
  omega

theorem chain'_mergeSort_byTotalDesc (l : List (String × HandicapStats)) :
    List.Chain' (fun a b => b.2.totalMatches ≤ a.2.totalMatches)
      (l.mergeSort byTotalDesc) := by
  have hp := List.sorted_mergeSort byTotalDesc_trans byTotalDesc_total l
  refine List.Pairwise.chain' (hp.imp ?_)
  intro a b hab
  simpa [byTotalDesc] using hab

theorem byTotalDescTeam_trans (a b c : Team × TeamBuckets) :
    byTotalDescTeam a b → byTotalDescTeam b c → byTotalDescTeam a c := by
  simp only [byTotalDescTeam, decide_eq_true_eq]
  omega

theorem byTotalDescTeam_total (a b : Team × TeamBuckets) :
    byTotalDescTeam a b || byTotalDescTeam b a := by
  simp only [byTotalDescTeam, Bool.or_eq_true, decide_eq_true_eq]
  omega

theorem chain'_mergeSort_byTotalDescTeam (l : List (Team × TeamBuckets)) :
    List.Chain' (fun a b => b.2.totalMatches ≤ a.2.totalMatches)
      (l.mergeSort byTotalDescTeam) := by
  have hp := List.sorted_mergeSort byTotalDescTeam_trans byTotalDescTeam_total l
  refine List.Pairwise.chain' (hp.imp ?_)
  intro a b hab
  simpa [byTotalDescTeam] using hab

/-! ### Association-map helpers for the general handicap page -/

theorem mapGet?_mapUpdate_ne {k k' : String} (hne : k ≠ k') (f : TeamBuckets → TeamBuckets) :
    ∀ l : List (String × TeamBuckets), mapGet? (mapUpdate k' f l) k = mapGet? l k
  | [] => rfl
  | (k'', v) :: rest => by
    by_cases h2 : (k'' == k') = true
    · have h2' : k'' = k' := by simpa using h2
      have h3 : (k'' == k) = false := by
        simp only [beq_eq_false_iff_ne]
        rw [h2']
        exact Ne.symm hne
      simp [mapUpdate, h2, mapGet?, h3]
    · simp [mapUpdate, h2, mapGet?, mapGet?_mapUpdate_ne hne f rest]

/-- A record neither of whose truthy side ids equals `tid` leaves `tid`'s entry
of the general page's buckets map untouched. -/
theorem generalPageStep_other_team (hv : List ℚ) (m : Match) (tid : String)
    (hr : m.radiantTeamId ≠ some tid) (hd : m.direTeamId ≠ some tid)
    (buckets : List (String × TeamBuckets)) :
    mapGet? (generalPageStep hv buckets m) tid = mapGet? buckets tid := by
  rcases hrv : m.radiantTeamId with _ | r
  · rcases hdv : m.direTeamId with _ | d
    · simp [generalPageStep, hrv, hdv]
    · have hnd : d ≠ tid := fun he => hd (by rw [hdv, he])
      by_cases hde : (d != "") = true <;>
        simp [generalPageStep, hrv, hdv, hde, accumulateMatchForTeam,
          mapGet?_mapUpdate_ne (Ne.symm hnd)]
  · rcases hdv : m.direTeamId with _ | d
    · have hnr : r ≠ tid := fun he => hr (by rw [hrv, he])
      by_cases hre : (r != "") = true <;>
        simp [generalPageStep, hrv, hdv, hre, accumulateMatchForTeam,
          mapGet?_mapUpdate_ne (Ne.symm hnr)]
    · have hnr : r ≠ tid := fun he => hr (by rw [hrv, he])
      have hnd : d ≠ tid := fun he => hd (by rw [hdv, he])
      by_cases hre : (r != "") = true <;> by_cases hde : (d != "") = true <;>
        simp [generalPageStep, hrv, hdv, hre, hde, accumulateMatchForTeam,
          mapGet?_mapUpdate_ne (Ne.symm hnr), mapGet?_mapUpdate_ne (Ne.symm hnd)]

/-! ## Claim theorems -/

/-- Claim C1: for every participant match and every handicap value of the
range, `calculateTeamHandicapData` increments the bucket of the relevant
category exactly when `killDifferential + handicap > 0`, where the kill
differential is the team's own final score minus the opponent's final score
regardless of the side the team occupied. -/
theorem bucket_counts_characterize_coverage (matchList : List Match) (team : Team)
    (h : ℚ) (hmem : h ∈ buildHandicapRangeValues) :
    ((calculateTeamHandicapData matchList team buildHandicapRangeValues).counts.general h =
        matchList.countP (fun m => isParticipant m team.id && covered m team.id h)) ∧
      ((calculateTeamHandicapData matchList team buildHandicapRangeValues).counts.victories h =
        matchList.countP
          (fun m => isParticipant m team.id && wonBy m team.id && covered m team.id h)) ∧
      ((calculateTeamHandicapData matchList team buildHandicapRangeValues).counts.losses h =
        matchList.countP
          (fun m => isParticipant m team.id && !wonBy m team.id && covered m team.id h)) ∧
      (∀ m : Match, m.radiantTeamId = some team.id →
        killDiff m team.id = m.radiantScore - m.direScore) ∧
      (∀ m : Match, m.radiantTeamId ≠ some team.id →
        killDiff m team.id = m.direScore - m.radiantScore) := by
  have hcount := range_count_eq_one hmem
  refine ⟨?_, ?_, ?_, ?_, ?_⟩
  · simp only [calculateTeamHandicapData]
    rw [foldl_teamAggStep_general, hcount]
    simp [createBuckets]
  · simp only [calculateTeamHandicapData]
    rw [foldl_teamAggStep_victories_bucket, hcount]
    simp [createBuckets]
  · simp only [calculateTeamHandicapData]
    rw [foldl_teamAggStep_losses_bucket, hcount]
    simp [createBuckets]
  · intro m hm
    simp [killDiff, hm]
  · intro m hm
    simp [killDiff, hm]

theorem bucket_counts_characterize_coverage_witness :
    ((1 : ℚ)/2 ∈ buildHandicapRangeValues) ∧
      ((calculateTeamHandicapData [exMatchWin, exMatchLoss, exMatchNoSides] exTeam
            buildHandicapRangeValues).counts.general (1/2) =
        [exMatchWin, exMatchLoss, exMatchNoSides].countP
          (fun m => isParticipant m exTeam.id && covered m exTeam.id (1/2))) ∧
      ([exMatchWin, exMatchLoss, exMatchNoSides].countP
          (fun m => isParticipant m exTeam.id && covered m exTeam.id (1/2)) = 1) :=
  ⟨by with_unfolding_all decide,
    (bucket_counts_characterize_coverage [exMatchWin, exMatchLoss, exMatchNoSides] exTeam
      (1/2) (by with_unfolding_all decide)).1,
    by with_unfolding_all decide⟩

/-- Claim C2, as stated, is false: the inline aggregation of
`TeamHandicapPage` has no participation test, so a record whose two side ids
both differ from the team id (here: both `null`) is still counted in the
team's overall summary (it is processed as a dire-side match). -/
theorem notparticipant_counted_counterexample :
    (exMatchNoSides.radiantTeamId ≠ some exTeam.id ∧
        exMatchNoSides.direTeamId ≠ some exTeam.id) ∧
      (teamPageAggregate [exMatchNoSides] exTeam.id
          buildHandicapRangeValues).overall.totalMatches = 1 ∧
      (teamPageAggregate [exMatchNoSides] exTeam.id
          buildHandicapRangeValues).overall.totalMatches ≠ 0 := by
  refine ⟨⟨by decide, by decide⟩, ?_, ?_⟩ <;> with_unfolding_all decide

/-- Claim C2 (amended): in the patch page's `calculateTeamHandicapData` a
record matching neither side id is skipped and contributes nothing to the
summary, and in the general handicap page such a record never touches the
team's buckets; the team handicap page's inline aggregation, however, counts
every record of its (pre-filtered) input. -/
theorem notparticipant_contributes_nothing (ms₁ ms₂ : List Match) (m : Match)
    (team : Team) (hv : List ℚ) (hr : m.radiantTeamId ≠ some team.id)
    (hd : m.direTeamId ≠ some team.id) :
    (calculateTeamHandicapData (ms₁ ++ m :: ms₂) team hv =
        calculateTeamHandicapData (ms₁ ++ ms₂) team hv) ∧
      (∀ buckets : List (String × TeamBuckets),
        mapGet? (generalPageStep hv buckets m) team.id = mapGet? buckets team.id) := by
  have hp : isParticipant m team.id = false := by
    simp only [isParticipant, Bool.or_eq_false_iff, beq_eq_false_iff_ne]
    exact ⟨hr, hd⟩
  constructor
  · simp only [calculateTeamHandicapData, List.foldl_append, List.foldl_cons,
      teamAggStep_not_participant hp]
  · intro buckets
    exact generalPageStep_other_team hv m team.id hr hd buckets

theorem notparticipant_contributes_nothing_witness :
    (exMatchNoSides.radiantTeamId ≠ some exTeam.id) ∧
      (exMatchNoSides.direTeamId ≠ some exTeam.id) ∧
      (calculateTeamHandicapData [exMatchWin, exMatchNoSides] exTeam
          buildHandicapRangeValues =
        calculateTeamHandicapData [exMatchWin] exTeam buildHandicapRangeValues) :=
  ⟨by decide, by decide,
    (notparticipant_contributes_nothing [exMatchWin] [] exMatchNoSides exTeam
      buildHandicapRangeValues (by decide) (by decide)).1⟩

/-- Claim C3: the handicap range generator deterministically yields the 18
values −16.5, −14.5, …, −0.5, 0.5, …, 14.5, 16.5 in this order, none zero and
all with fractional part .5, and formats each with exactly one decimal
place. -/
theorem handicap_range_deterministic :
    (buildHandicapRangeValues =
        [-33/2, -29/2, -25/2, -21/2, -17/2, -13/2, -9/2, -5/2, -1/2,
          1/2, 5/2, 9/2, 13/2, 17/2, 21/2, 25/2, 29/2, 33/2]) ∧
      (buildHandicapRange =
        ["-16.5", "-14.5", "-12.5", "-10.5", "-8.5", "-6.5", "-4.5", "-2.5", "-0.5",
          "0.5", "2.5", "4.5", "6.5", "8.5", "10.5", "12.5", "14.5", "16.5"]) ∧
      buildHandicapRange.length = 18 ∧
      (buildHandicapRangeValues.all (fun v => decide (v ≠ 0)) = true) ∧
      (buildHandicapRangeValues.all (fun v => v.den == 2) = true) := by
  refine ⟨range_values_eq, ?_, ?_, ?_, ?_⟩ <;> with_unfolding_all decide

/-- Claim C4: every derived percentage of `calculateTeamHandicapData` equals
the bucket count over the category total, times 100, rounded to two decimals,
and is exactly 0 when the category total is 0, in particular on the empty
match population; the team page's `finalizePercentages` obeys the same guarded
formula. -/
theorem percentages_guarded (matchList : List Match) (team : Team) (h : ℚ)
    (hmem : h ∈ buildHandicapRangeValues) :
    ((calculateTeamHandicapData matchList team buildHandicapRangeValues).percentages.general h =
        if 0 < (calculateTeamHandicapData matchList team buildHandicapRangeValues).totalMatches
        then
          roundTo2
            (((calculateTeamHandicapData matchList team
                buildHandicapRangeValues).counts.general h : ℚ) /
              ((calculateTeamHandicapData matchList team
                buildHandicapRangeValues).totalMatches : ℚ) * 100)
        else 0) ∧
      ((calculateTeamHandicapData matchList team buildHandicapRangeValues).percentages.victories
          h =
        if 0 < (calculateTeamHandicapData matchList team buildHandicapRangeValues).victories
        then
          roundTo2
            (((calculateTeamHandicapData matchList team
                buildHandicapRangeValues).counts.victories h : ℚ) /
              ((calculateTeamHandicapData matchList team
                buildHandicapRangeValues).victories : ℚ) * 100)
        else 0) ∧
      ((calculateTeamHandicapData matchList team buildHandicapRangeValues).percentages.losses h =
        if 0 < (calculateTeamHandicapData matchList team buildHandicapRangeValues).losses then
          roundTo2
            (((calculateTeamHandicapData matchList team
                buildHandicapRangeValues).counts.losses h : ℚ) /
              ((calculateTeamHandicapData matchList team
                buildHandicapRangeValues).losses : ℚ) * 100)
        else 0) ∧
      (matchList = [] →
        (calculateTeamHandicapData matchList team buildHandicapRangeValues).percentages.general
            h = 0 ∧
          (calculateTeamHandicapData matchList team
              buildHandicapRangeValues).percentages.victories h = 0 ∧
          (calculateTeamHandicapData matchList team
              buildHandicapRangeValues).percentages.losses h = 0) ∧
      (∀ st : HandicapStats,
        (finalizePercentages st buildHandicapRangeValues).percentagesTotal h =
          if 0 < st.wins + st.losses then
            roundTo2 (((st.handicapStatsWins h : ℚ) + (st.handicapStatsLosses h : ℚ)) /
              ((st.wins : ℚ) + (st.losses : ℚ)) * 100)
          else 0) := by
  refine ⟨?_, ?_, ?_, ?_, ?_⟩
  · simp only [calculateTeamHandicapData]
    exact calculatePercentages_apply _ _ _ hmem
  · simp only [calculateTeamHandicapData]
    exact calculatePercentages_apply _ _ _ hmem
  · simp only [calculateTeamHandicapData]
    exact calculatePercentages_apply _ _ _ hmem
  · intro hempty
    subst hempty
    refine ⟨?_, ?_, ?_⟩ <;>
      · simp only [calculateTeamHandicapData, List.foldl_nil]
        rw [calculatePercentages_apply _ _ _ hmem]
        simp
  · intro st
    exact (finalizePercentages_apply buildHandicapRangeValues st hmem).2.2

theorem percentages_guarded_witness :
    ((1 : ℚ)/2 ∈ buildHandicapRangeValues) ∧
      ((calculateTeamHandicapData [exMatchWin, exMatchLoss] exTeam
            buildHandicapRangeValues).percentages.general (1/2) =
        if 0 <
            (calculateTeamHandicapData [exMatchWin, exMatchLoss] exTeam
              buildHandicapRangeValues).totalMatches then
          roundTo2
            (((calculateTeamHandicapData [exMatchWin, exMatchLoss] exTeam
                buildHandicapRangeValues).counts.general (1/2) : ℚ) /
              ((calculateTeamHandicapData [exMatchWin, exMatchLoss] exTeam
                buildHandicapRangeValues).totalMatches : ℚ) * 100)
        else 0) ∧
      ((calculateTeamHandicapData [exMatchWin, exMatchLoss] exTeam
          buildHandicapRangeValues).percentages.general (1/2) = 50) :=
  ⟨by with_unfolding_all decide,
    (percentages_guarded [exMatchWin, exMatchLoss] exTeam (1/2)
      (by with_unfolding_all decide)).1,
    by with_unfolding_all decide⟩

/-- Claim C5: every participant match feeds the `general` buckets and exactly
one of the `victories`/`losses` buckets, so for every handicap value the
general count is the sum of the victory and loss counts (hence at least each
of them), victories and losses partition the participant matches, and on the
team page every counted match lands in exactly one of wins/losses. -/
theorem category_partition (matchList : List Match) (team : Team) (h : ℚ) :
    ((calculateTeamHandicapData matchList team buildHandicapRangeValues).counts.general h =
        (calculateTeamHandicapData matchList team
            buildHandicapRangeValues).counts.victories h +
          (calculateTeamHandicapData matchList team buildHandicapRangeValues).counts.losses
            h) ∧
      ((calculateTeamHandicapData matchList team buildHandicapRangeValues).counts.victories h ≤
        (calculateTeamHandicapData matchList team buildHandicapRangeValues).counts.general h) ∧
      ((calculateTeamHandicapData matchList team buildHandicapRangeValues).counts.losses h ≤
        (calculateTeamHandicapData matchList team buildHandicapRangeValues).counts.general h) ∧
      ((calculateTeamHandicapData matchList team buildHandicapRangeValues).victories +
          (calculateTeamHandicapData matchList team buildHandicapRangeValues).losses =
        (calculateTeamHandicapData matchList team buildHandicapRangeValues).totalMatches) ∧
      ((teamPageAggregate matchList team.id buildHandicapRangeValues).overall.wins +
          (teamPageAggregate matchList team.id buildHandicapRangeValues).overall.losses =
        (teamPageAggregate matchList team.id buildHandicapRangeValues).overall.totalMatches) := by
  have hsplit := countP_split (fun m => isParticipant m team.id && covered m team.id h)
    (fun m => wonBy m team.id) matchList
  have hpred1 :
      (fun m => (isParticipant m team.id && covered m team.id h) && wonBy m team.id) =
        (fun m => isParticipant m team.id && wonBy m team.id && covered m team.id h) := by
    funext m
    cases h1 : isParticipant m team.id <;> cases h2 : covered m team.id h <;>
      cases h3 : wonBy m team.id <;> rfl
  have hpred2 :
      (fun m => (isParticipant m team.id && covered m team.id h) && !wonBy m team.id) =
        (fun m => isParticipant m team.id && !wonBy m team.id && covered m team.id h) := by
    funext m
    cases h1 : isParticipant m team.id <;> cases h2 : covered m team.id h <;>
      cases h3 : wonBy m team.id <;> rfl
  rw [hpred1, hpred2] at hsplit
  have hsplit2 := countP_split (fun m => isParticipant m team.id)
    (fun m => wonBy m team.id) matchList
  refine ⟨?_, ?_, ?_, ?_, ?_⟩
  · simp only [calculateTeamHandicapData]
    rw [foldl_teamAggStep_general, foldl_teamAggStep_victories_bucket,
      foldl_teamAggStep_losses_bucket]
    simp only [createBuckets, Nat.zero_add]
    rw [hsplit, Nat.add_mul]
  · simp only [calculateTeamHandicapData]
    rw [foldl_teamAggStep_general, foldl_teamAggStep_victories_bucket]
    simp only [createBuckets, Nat.zero_add]
    rw [hsplit, Nat.add_mul]
    omega
  · simp only [calculateTeamHandicapData]
    rw [foldl_teamAggStep_general, foldl_teamAggStep_losses_bucket]
    simp only [createBuckets, Nat.zero_add]
    rw [hsplit, Nat.add_mul]
    omega
  · simp only [calculateTeamHandicapData]
    rw [foldl_teamAggStep_victories, foldl_teamAggStep_losses,
      foldl_teamAggStep_totalMatches]
    simp only [Nat.zero_add]
    omega
  · rw [teamPageAggregate_overall_wins_losses, teamPageAggregate_overall_total]

/-- Claim C6: the head-to-head tally's total is symmetric in the two team
arguments, the two win counters always sum to the total, and a population with
no match pitting the two teams against each other yields the all-zero tally
rather than an error. -/
theorem headToHead_properties (matchList : List Match) (teamA teamB : String) :
    ((headToHead matchList teamA teamB).total = (headToHead matchList teamB teamA).total) ∧
      ((headToHead matchList teamA teamB).team1Wins +
          (headToHead matchList teamA teamB).team2Wins =
        (headToHead matchList teamA teamB).total) ∧
      ((∀ m ∈ matchList, pitsAgainst m teamA teamB = false) →
        headToHead matchList teamA teamB = ⟨0, 0, 0⟩) := by
  refine ⟨?_, headToHead_wins_eq_total matchList teamA teamB, ?_⟩
  · rw [headToHead_total, headToHead_total]
    have hfun : (fun m => pitsAgainst m teamA teamB) =
        (fun m => pitsAgainst m teamB teamA) :=
      funext fun m => pitsAgainst_symm m teamA teamB
    rw [hfun]
  · intro hnone
    have htot : (headToHead matchList teamA teamB).total = 0 := by
      rw [headToHead_total]
      refine List.countP_eq_zero.mpr ?_
      intro m hm
      simpa using hnone m hm
    have hw := headToHead_wins_eq_total matchList teamA teamB
    rcases hhh : headToHead matchList teamA teamB with ⟨t, w1, w2⟩
    rw [hhh] at htot hw
    simp only [HeadToHeadTally.mk.injEq]
    simp only at htot hw
    omega

theorem headToHead_properties_witness :
    (pitsAgainst exMatchNoSides "A" "B" = false) ∧
      headToHead [exMatchNoSides] "A" "B" = ⟨0, 0, 0⟩ :=
  ⟨by decide, (headToHead_properties [exMatchNoSides] "A" "B").2.2 (by decide)⟩

/-- Claim C7: an integral kill differential plus a handicap value of the range
is never zero, so every (match, handicap) pair is decisively covered or not
covered. -/
theorem adjusted_margin_never_zero (h : ℚ) (hmem : h ∈ buildHandicapRangeValues)
    (m : Match) (teamId : String) :
    ((killDiff m teamId : ℚ) + h ≠ 0) ∧
      (0 < (killDiff m teamId : ℚ) + h ∨ (killDiff m teamId : ℚ) + h < 0) := by
  have hne := intCast_add_range_ne_zero hmem (killDiff m teamId)
  refine ⟨hne, ?_⟩
  rcases hne.lt_or_lt with hlt | hgt
  · exact Or.inr hlt
  · exact Or.inl hgt

theorem adjusted_margin_never_zero_witness :
    ((1 : ℚ)/2 ∈ buildHandicapRangeValues) ∧
      (((killDiff exMatchWin "T" : ℚ) + 1/2 ≠ 0) ∧
        (0 < (killDiff exMatchWin "T" : ℚ) + 1/2 ∨
          (killDiff exMatchWin "T" : ℚ) + 1/2 < 0)) :=
  ⟨by with_unfolding_all decide,
    adjusted_margin_never_zero (1/2) (by with_unfolding_all decide) exMatchWin "T"⟩

/-- Claim C8: every grouped row list — the team page's per-league and
per-patch rows and the general patch page's per-team rows — is sorted by
descending total match count: each row's total is at least the next row's. -/
theorem rows_sorted_descending (matchList : List Match) (teamId : String)
    (hv : List ℚ) (teams filteredTeams : List Team) :
    List.Chain' (fun a b => b.2.totalMatches ≤ a.2.totalMatches)
        (leagueRows matchList teamId hv) ∧
      List.Chain' (fun a b => b.2.totalMatches ≤ a.2.totalMatches)
        (patchRows matchList teamId hv) ∧
      List.Chain' (fun a b => b.2.totalMatches ≤ a.2.totalMatches)
        (generalRows matchList teams filteredTeams hv) :=
  ⟨chain'_mergeSort_byTotalDesc _, chain'_mergeSort_byTotalDesc _,
    chain'_mergeSort_byTotalDescTeam _⟩

/-- Claim C9: coverage is monotone along the range: for a fixed kill
differential, if the adjusted margin is positive at one handicap it is
positive at every larger handicap, so the general bucket counts are
non-decreasing in the handicap value. -/
theorem coverage_monotone (d : ℤ) (h h' : ℚ) (hmem : h ∈ buildHandicapRangeValues)
    (hmem' : h' ∈ buildHandicapRangeValues) (hle : h ≤ h') :
    (((d : ℚ) + h > 0) → ((d : ℚ) + h' > 0)) ∧
      (∀ (matchList : List Match) (team : Team),
        (calculateTeamHandicapData matchList team buildHandicapRangeValues).counts.general h ≤
          (calculateTeamHandicapData matchList team
            buildHandicapRangeValues).counts.general h') := by
  constructor
  · intro hpos
    linarith
  · intro matchList team
    simp only [calculateTeamHandicapData]
    rw [foldl_teamAggStep_general, foldl_teamAggStep_general, range_count_eq_one hmem,
      range_count_eq_one hmem']
    simp only [createBuckets, Nat.zero_add, Nat.mul_one]
    refine countP_le_countP matchList ?_
    intro m hm
    simp only [Bool.and_eq_true, covered, decide_eq_true_eq] at hm ⊢
    exact ⟨hm.1, by linarith [hm.2]⟩

theorem coverage_monotone_witness :
    ((1 : ℚ)/2 ∈ buildHandicapRangeValues) ∧ ((5 : ℚ)/2 ∈ buildHandicapRangeValues) ∧
      ((1 : ℚ)/2 ≤ 5/2) ∧
      ((calculateTeamHandicapData [exMatchWin, exMatchLoss] exTeam
            buildHandicapRangeValues).counts.general (1/2) ≤
        (calculateTeamHandicapData [exMatchWin, exMatchLoss] exTeam
          buildHandicapRangeValues).counts.general (5/2)) :=
  ⟨by with_unfolding_all decide, by with_unfolding_all decide,
    by with_unfolding_all decide,
    (coverage_monotone 0 (1/2) (5/2) (by with_unfolding_all decide)
        (by with_unfolding_all decide) (by with_unfolding_all decide)).2
      [exMatchWin, exMatchLoss] exTeam⟩

/-- Claim C10: on the team page, every record is counted in the overall
summary, but only records with a truthy (non-empty) league id or patch id
reach the corresponding group, so the group totals sum to the number of
matches carrying that key — which is strictly less than the overall total as
soon as one record lacks the key. -/
theorem group_totals_sum (matchList : List Match) (teamId : String) (hv : List ℚ) :
    (((teamPageAggregate matchList teamId hv).leagueStats.map
          (fun e => e.2.totalMatches)).sum =
        matchList.countP (fun m => m.leagueId != "")) ∧
      (((teamPageAggregate matchList teamId hv).patchStats.map
          (fun e => e.2.totalMatches)).sum =
        matchList.countP (fun m => m.patchId != "")) ∧
      ((teamPageAggregate matchList teamId hv).overall.totalMatches = matchList.length) ∧
      (((teamPageAggregate [exMatchNoSides] teamId hv).leagueStats.map
          (fun e => e.2.totalMatches)).sum <
        (teamPageAggregate [exMatchNoSides] teamId hv).overall.totalMatches) := by
  refine ⟨teamPageAggregate_league_sum matchList teamId hv,
    teamPageAggregate_patch_sum matchList teamId hv,
    teamPageAggregate_overall_total matchList teamId hv, ?_⟩
  rw [teamPageAggregate_league_sum, teamPageAggregate_overall_total]
  simp [exMatchNoSides]

end DotaData
